import Mathlib

/-!
Shallow embedding of the preciazo price-observation pipeline.

Store / query side (src/unnamed/part_000):
* the drizzle `precios` table declaration (column list `preciosColumnNames`);
* the SvelteKit `load` endpoint: `SELECT * FROM precios WHERE ean = ? ORDER BY fetched_at`,
  a 404 on an empty result, and `res.findLast((p) => p.name)` for the metadata row.

Scraper side (src/scraper/dia.ts):
* `getDiaProduct`, built from the toolkit functions `getMetaProp`, `priceFromMeta`
  and `getProductJsonLd` of common.js (common.js is not part of the sources at hand,
  so those three are modelled from the specification), plus the unguarded JavaScript
  access chain `ld.offers.offers[0].availability` modelled with explicit
  undefined/TypeError semantics.
-/

namespace Preciazo

/-! ### Persisted layout -/

/-- Column names of the `precios` table exactly as declared in the drizzle schema
(src/unnamed/part_000, `sqliteTable("precios", ...)`): `id` (integer primary key,
auto-increment), `ean` (text, not null), `fetched_at` (integer timestamp, not null),
`precio_centavos` (integer, nullable), `in_stock` (integer boolean, nullable),
`url` (text, nullable).  Note the schema file declares no `name` column even though
the query code reads `p.name`. -/
def preciosColumnNames : List String :=
  ["id", "ean", "fetched_at", "precio_centavos", "in_stock", "url"]

/-- One persisted observation row as the query layer uses it.  The `name` field is
modelled from the spec's persisted layout (the schema file under the sources omits
it, while the query code `res.findLast((p) => p.name)` reads it; see the schema
divergence result). `fetchedAt` is the integer timestamp, `id` the auto-increment
identity. -/
structure Row where
  id : Nat
  ean : String
  fetchedAt : Nat
  precioCentavos : Option Int
  inStock : Option Bool
  url : Option String
  name : Option String
deriving Repr, DecidableEq

/-- A database state: the rows of `precios` in insertion order.  Auto-increment
identity is modelled by the hypothesis `insertionOrdered` where needed. -/
abbrev DB := List Row

/-- Identities strictly increase along the insertion order: what the
auto-incrementing `id` primary key guarantees for the table contents. -/
def insertionOrdered (db : DB) : Prop :=
  db.Pairwise (fun a b => a.id < b.id)

/-! ### Query layer (src/unnamed/part_000, `load`) -/

/-- Comparison used by `ORDER BY fetched_at`: ascending fetch timestamp. -/
def fetchedLe (a b : Row) : Prop :=
  a.fetchedAt ≤ b.fetchedAt

instance : DecidableRel fetchedLe := fun a b => Nat.decLe a.fetchedAt b.fetchedAt

instance : IsTotal Row fetchedLe := ⟨fun a b => Nat.le_total a.fetchedAt b.fetchedAt⟩

instance : IsTrans Row fetchedLe := ⟨fun _ _ _ h₁ h₂ => Nat.le_trans h₁ h₂⟩

/-- Executable model of the query issued by `load`:
`db.select().from(precios).where(eq(precios.ean, params.ean)).orderBy(precios.fetchedAt)`.
Row filtering keeps exactly the rows whose `ean` matches and the rows are sorted
ascending by `fetched_at`.  The query names no secondary sort key, and SQLite's
contract leaves the relative order of rows with equal `fetched_at` unspecified;
this executable model resolves that freedom by one admissible choice (a stable
sort of the insertion-ordered scan).  What the program actually guarantees is
only `admissibleQueryResult` below, which all ordering-sensitive theorems except
the explicitly flagged tie-break result are insensitive to. -/
def historyFor (db : DB) (ean : String) : List Row :=
  (db.filter (fun r => r.ean == ean)).insertionSort fetchedLe

/-- The guarantee the SQL contract gives for the result list of
`SELECT * FROM precios WHERE ean = ? ORDER BY fetched_at`: it is some permutation
of the matching rows that is ascending in `fetched_at`.  With no secondary sort
key in the query, any relative order of equal-`fetched_at` rows is admissible. -/
def admissibleQueryResult (db : DB) (ean : String) (l : List Row) : Prop :=
  l.Perm (db.filter (fun r => r.ean == ean)) ∧ l.Pairwise fetchedLe

/-- JavaScript truthiness of `p.name` for a row: `undefined`/`null` and the empty
string are falsy, any non-empty string is truthy. -/
def truthyName (r : Row) : Bool :=
  match r.name with
  | none => false
  | some s => !s.isEmpty

/-- JavaScript `Array.prototype.findLast`: the last element satisfying the
predicate, i.e. the first one when iterating in reverse order. -/
def jsFindLast (l : List Row) (p : Row → Bool) : Option Row :=
  l.reverse.find? p

/-- The `meta` value computed by `load`: `res.findLast((p) => p.name)` over the
query result — the spec's `latestMetadata`. -/
def latestMetadata (db : DB) (ean : String) : Option Row :=
  jsFindLast (historyFor db ean) truthyName

/-- Result of the `load` endpoint: either `error(404, "Not Found")` or the page
data `{ precios: res, meta }`. -/
inductive LoadResult where
  | err (status : Nat) (msg : String)
  | page (precios : List Row) (meta : Option Row)
deriving Repr, DecidableEq

/-- The `load` endpoint of src/unnamed/part_000: run the query; if
`res.length === 0` return `error(404, "Not Found")`; otherwise return the rows
together with `res.findLast((p) => p.name)`. -/
def load (db : DB) (ean : String) : LoadResult :=
  let res := historyFor db ean
  if res.length = 0 then .err 404 "Not Found"
  else .page res (jsFindLast res truthyName)

/-! ### JSON values and JavaScript access semantics -/

/-- Parsed JSON values, as produced by parsing a JSON-LD block. -/
inductive Json where
  | null
  | bool (b : Bool)
  | num (n : Int)
  | str (s : String)
  | arr (xs : List Json)
  | obj (kvs : List (String × Json))
deriving Repr

/-- Key lookup in a JSON object's field list (first binding wins, as in a parsed
JS object). -/
def lookupKey (kvs : List (String × Json)) (k : String) : Option Json :=
  match kvs with
  | [] => none
  | (k₀, v) :: rest => if k₀ = k then some v else lookupKey rest k

/-- A JavaScript value as seen by the access chain: either `undefined` or a JSON
value. -/
inductive JsVal where
  | undefined
  | val (j : Json)
deriving Repr

/-- JavaScript property access `x.k`:  throws `TypeError` (modelled as
`Except.error ()`) on `undefined` and `null`; on an object it yields the property
or `undefined`; on the remaining primitives and arrays the names accessed here
(`offers`, `availability`) are not own properties, so the access yields
`undefined`. -/
def jsGetProp : JsVal → String → Except Unit JsVal
  | .undefined, _ => .error ()
  | .val .null, _ => .error ()
  | .val (.obj kvs), k =>
    .ok (match lookupKey kvs k with
         | some v => .val v
         | none => .undefined)
  | .val _, _ => .ok .undefined

/-- JavaScript index access `x[i]` for a numeric literal `i`:  throws `TypeError`
on `undefined` and `null`; on an array it yields the element or `undefined` past
the end; on an object the index is converted to the string key; on a string it
yields the one-character string at that position or `undefined`; on numbers and
booleans it yields `undefined`. -/
def jsGetIndex : JsVal → Nat → Except Unit JsVal
  | .undefined, _ => .error ()
  | .val .null, _ => .error ()
  | .val (.arr xs), i =>
    .ok (match xs.get? i with
         | some v => .val v
         | none => .undefined)
  | .val (.obj kvs), i =>
    .ok (match lookupKey kvs (toString i) with
         | some v => .val v
         | none => .undefined)
  | .val (.str s), i =>
    .ok (match s.data.get? i with
         | some c => .val (.str (String.mk [c]))
         | none => .undefined)
  | .val _, _ => .ok .undefined

/-- JavaScript strict equality `x === s` against a string literal. -/
def jsStrEq (x : JsVal) (s : String) : Bool :=
  match x with
  | .val (.str t) => t == s
  | _ => false

/-- The stock check of src/scraper/dia.ts lines 12–14:
`ld.offers.offers[0].availability === "http://schema.org/InStock"`, evaluated with
JavaScript semantics; `Except.error ()` is the untyped runtime `TypeError` thrown
when the chain hits a property access on `undefined`/`null`. -/
def diaInStock (ld : Json) : Except Unit Bool :=
  match jsGetProp (.val ld) "offers" with
  | .error e => .error e
  | .ok a =>
    match jsGetProp a "offers" with
    | .error e => .error e
    | .ok b =>
      match jsGetIndex b 0 with
      | .error e => .error e
      | .ok c =>
        match jsGetProp c "availability" with
        | .error e => .error e
        | .ok d => .ok (jsStrEq d "http://schema.org/InStock")

/-! ### Extraction toolkit (common.js — not among the sources; modelled from the spec) -/

/-- A parsed product page as the dia extractor consumes it: the
`<meta property=... content=...>` pairs, and the product JSON-LD block
(`none` models the block being missing or its content failing to parse as JSON,
the two conditions the spec folds into `MalformedStructuredData`). -/
structure ParsedDoc where
  metaProps : List (String × String)
  productLd : Option Json

/-- Errors of the extraction pipeline: `missingIdentifier` is the thrown
`Error("No encontré el ean")`; `malformedStructuredData` and `priceParseError`
are the spec's toolkit errors; `jsTypeError` is an untyped JavaScript runtime
`TypeError`, distinct from every named extraction error. -/
inductive ScrapeError where
  | missingIdentifier
  | malformedStructuredData
  | priceParseError
  | jsTypeError
deriving Repr, DecidableEq

/-- Modelled from the spec: `getMetaProp(document, propertyName)` looks up a single
meta-tag's content by its property attribute and returns it, or absent when the
tag is missing (common.js is not among the sources). -/
def getMetaProp (d : ParsedDoc) (prop : String) : Option String :=
  (d.metaProps.find? (fun p => p.1 == prop)).map Prod.snd

/-- Modelled from the spec: `getProductJsonLd(document)` locates the embedded
JSON-LD product block and parses it, failing with `MalformedStructuredData` when
the block is missing or unparseable (common.js is not among the sources). -/
def getProductJsonLd (d : ParsedDoc) : Except ScrapeError Json :=
  match d.productLd with
  | none => .error .malformedStructuredData
  | some j => .ok j

/-- Numeric value of a digit string, most significant digit first. -/
def digitsVal (cs : List Char) : Nat :=
  cs.foldl (fun a c => a * 10 + (c.toNat - '0'.toNat)) 0

/-- Split a character list at every occurrence of the given character. -/
def splitOnChar (c : Char) : List Char → List (List Char)
  | [] => [[]]
  | x :: xs =>
    match splitOnChar c xs with
    | [] => if x = c then [[], []] else [[x]]
    | h :: t => if x = c then [] :: h :: t else (x :: h) :: t

/-- A non-empty all-digit character list. -/
def isDigits (cs : List Char) : Bool :=
  !cs.isEmpty && cs.all (fun c => c.isDigit)

/-- Modelled from the spec: parse a decimal currency amount — digits with an
optional single decimal point and fractional digits.  Returns the integer part
and the fractional digit list, or `none` when the text is not a valid decimal
number. -/
def parseDecimal (s : String) : Option (Nat × List Char) :=
  match splitOnChar '.' s.data with
  | [a] => if isDigits a then some (digitsVal a, []) else none
  | [a, b] => if isDigits a && isDigits b then some (digitsVal a, b) else none
  | _ => none

/-- Minor units of the decimal amount `n.frac`: multiply by 100 and round to the
nearest integer (halves up): `n * 100 + round(100 * frac / 10 ^ k)`. -/
def decToCents (n : Nat) (frac : List Char) : Nat :=
  n * 100 + (200 * digitsVal frac + 10 ^ frac.length) / (2 * 10 ^ frac.length)

/-- Modelled from the spec: `priceFromMeta(document)` reads the price-bearing meta
property, parses it as a decimal currency amount and converts it to integer minor
units (multiply by 100, round to nearest); it fails with `PriceParseError` when
the value is absent or not a valid decimal number (common.js is not among the
sources). -/
def priceFromMeta (d : ParsedDoc) : Except ScrapeError Int :=
  match getMetaProp d "product:price:amount" with
  | none => .error .priceParseError
  | some s =>
    match parseDecimal s with
    | none => .error .priceParseError
    | some (n, frac) => .ok (decToCents n frac : Nat)

/-! ### The dia extractor (src/scraper/dia.ts) -/

/-- The canonical observation produced by an extractor (`Precioish`). -/
structure Precioish where
  ean : String
  precioCentavos : Option Int
  inStock : Option Bool
deriving Repr, DecidableEq

/-- Translation of `getDiaProduct` (src/scraper/dia.ts): read the EAN meta
property and throw `Error("No encontré el ean")` when it is falsy (absent or the
empty string); read the price via `priceFromMeta`; read the product JSON-LD; test
`ld.offers.offers[0].availability === "http://schema.org/InStock"`; return
`{ ean, precioCentavos, inStock }`.  Thrown toolkit errors propagate unchanged;
the unguarded access chain may throw an untyped `TypeError`. -/
def getDiaProduct (d : ParsedDoc) : Except ScrapeError Precioish :=
  match getMetaProp d "product:retailer_item_id" with
  | none => .error .missingIdentifier
  | some ean =>
    if ean = "" then .error .missingIdentifier
    else
      match priceFromMeta d with
      | .error e => .error e
      | .ok precioCentavos =>
        match getProductJsonLd d with
        | .error e => .error e
        | .ok ld =>
          match diaInStock ld with
          | .error _ => .error .jsTypeError
          | .ok inStock => .ok ⟨ean, some precioCentavos, some inStock⟩

/-- Extraction with an explicit external world threaded through: `getDiaProduct`
performs no I/O and touches no shared state, so the world passes through
unchanged and the result depends only on the document. -/
def getDiaProductW {σ : Type} (w : σ) (d : ParsedDoc) :
    σ × Except ScrapeError Precioish :=
  (w, getDiaProduct d)

/-- The value at the JSON path `offers.offers` of a parsed JSON-LD block, when
the path exists (both steps through object keys). -/
def offersOffers (ld : Json) : Option Json :=
  match ld with
  | .obj kvs =>
    match lookupKey kvs "offers" with
    | some (.obj kvs₂) => lookupKey kvs₂ "offers"
    | _ => none
  | _ => none

/-- Whether a JSON value is a non-empty array. -/
def isNonEmptyArr (j : Json) : Bool :=
  match j with
  | .arr (_ :: _) => true
  | _ => false

/-! ### Concrete fixtures -/

/-- JSON-LD block of the end-to-end fixture: the first offer carries
`availability = "http://schema.org/InStock"`. -/
def diaFixtureLd : Json :=
  .obj [("offers", .obj [("offers",
    .arr [.obj [("availability", .str "http://schema.org/InStock")]])])]

/-- A parsed dia page with the given JSON-LD block, EAN meta `"7790001"` and
price meta `"199.90"`. -/
def docWithLd (ld : Json) : ParsedDoc :=
  ⟨[("product:retailer_item_id", "7790001"), ("product:price:amount", "199.90")],
   some ld⟩

/-- The end-to-end fixture page of the spec's testable properties. -/
def diaFixture : ParsedDoc := docWithLd diaFixtureLd

/-- A page whose only content is a price meta tag with the given value. -/
def priceOnlyDoc (s : String) : ParsedDoc :=
  ⟨[("product:price:amount", s)], none⟩

/-- A JSON-LD block whose `offers.offers` value is the non-empty string `"x"`,
neither missing nor an array. -/
def ldStrOffers : Json :=
  .obj [("offers", .obj [("offers", .str "x")])]

/-- Concrete rows used to instantiate the query-layer theorems: three rows of one
EAN (one with no name, one with a name, one tied timestamp with an empty name)
and one row of another EAN. -/
def wr1 : Row := ⟨1, "77", 5, some 100, some true, none, some "Yerba"⟩

/-- Second sample row: same EAN, earlier fetch, no name. -/
def wr2 : Row := ⟨2, "77", 3, none, none, none, none⟩

/-- Third sample row: a different EAN. -/
def wr3 : Row := ⟨3, "88", 4, none, none, none, some "Otro"⟩

/-- Fourth sample row: same EAN and timestamp as `wr1` but an empty name. -/
def wr4 : Row := ⟨4, "77", 5, some 120, some false, none, some ""⟩

/-- Sample database in insertion order. -/
def wdb : DB := [wr1, wr2, wr3, wr4]

end Preciazo

namespace Preciazo

/-! ### Theorems -/

/-- C2 — the claim asserts every persisted row carries a `name` field, but the
`precios` table declared in the schema file has no `name` column: its columns are
exactly `id`, `ean`, `fetched_at`, `precio_centavos`, `in_stock`, `url`.  (The
query code of the same sources reads `p.name`, so the schema file contradicts its
own caller — a slip in the code, not in the spec.) -/
theorem precios_schema_lacks_name : "name" ∉ preciosColumnNames := by
  decide

/-- C3 — when the parsed document lacks the `product:retailer_item_id` meta
property, `getDiaProduct` fails with the missing-identifier error
(`Error("No encontré el ean")`) and returns no (partial) `Precioish` value. -/
theorem getDiaProduct_missing_ean (d : ParsedDoc)
    (h : getMetaProp d "product:retailer_item_id" = none) :
    getDiaProduct d = .error .missingIdentifier := by
  unfold getDiaProduct
  rw [h]

/-- Witness for C3: the empty page has no EAN meta property, and extraction on it
fails with the missing-identifier error. -/
theorem getDiaProduct_missing_ean_witness :
    getMetaProp ⟨[], none⟩ "product:retailer_item_id" = none ∧
    getDiaProduct ⟨[], none⟩ = .error .missingIdentifier :=
  ⟨rfl, getDiaProduct_missing_ean ⟨[], none⟩ rfl⟩

/-- C4 — on the fixture page with EAN meta `"7790001"`, price meta `"199.90"` and
first-offer availability `"http://schema.org/InStock"`, `getDiaProduct` returns
exactly `{ean := "7790001", precioCentavos := 19990, inStock := true}`. -/
theorem getDiaProduct_fixture :
    getDiaProduct diaFixture = .ok ⟨"7790001", some 19990, some true⟩ := by
  rfl

/-- C9 — extraction is pure and deterministic: with an explicit external world
threaded through, `getDiaProduct` leaves the world unchanged, and its result
depends only on the input document (so two runs on the same input agree). -/
theorem getDiaProduct_pure (σ : Type) (w w₂ : σ) (d : ParsedDoc) :
    (getDiaProductW w d).1 = w ∧
    (getDiaProductW w d).2 = (getDiaProductW w₂ d).2 ∧
    (getDiaProductW w d).2 = getDiaProduct d :=
  ⟨rfl, rfl, rfl⟩

end Preciazo

namespace Preciazo

/-! ### Scraper theorems -/

/-- Helper: a successful `priceFromMeta` result is a cast natural number, hence
non-negative. -/
theorem priceFromMeta_nonneg (d : ParsedDoc) (c : Int)
    (h : priceFromMeta d = .ok c) : 0 ≤ c := by
  unfold priceFromMeta at h
  split at h
  · exact absurd h (by simp)
  · split at h
    · exact absurd h (by simp)
    · obtain rfl := Except.ok.inj h
      exact Int.natCast_nonneg _

/-- C7 — whenever `getDiaProduct` succeeds on a page, the returned record has a
non-empty `ean` (the falsy-EAN guard throws otherwise), and its
`precioCentavos`, when present, is non-negative. -/
theorem getDiaProduct_ok_shape (d : ParsedDoc) (r : Precioish)
    (h : getDiaProduct d = .ok r) :
    r.ean ≠ "" ∧ ∀ c, r.precioCentavos = some c → 0 ≤ c := by
  unfold getDiaProduct at h
  split at h
  · exact absurd h (by simp)
  · rename_i ean hm
    split at h
    · exact absurd h (by simp)
    · rename_i hne
      split at h
      · exact absurd h (by simp)
      · rename_i price hp
        split at h
        · exact absurd h (by simp)
        · rename_i ld hld
          split at h
          · exact absurd h (by simp)
          · rename_i st hst
            obtain rfl := Except.ok.inj h
            refine ⟨hne, ?_⟩
            intro c hc
            obtain rfl := Option.some.inj hc
            exact priceFromMeta_nonneg d _ hp

/-- Witness for C7: instantiated on the end-to-end fixture. -/
theorem getDiaProduct_ok_shape_witness :
    (⟨"7790001", some 19990, some true⟩ : Precioish).ean ≠ "" ∧
    ∀ c, (⟨"7790001", some 19990, some true⟩ : Precioish).precioCentavos = some c →
      0 ≤ c :=
  getDiaProduct_ok_shape diaFixture ⟨"7790001", some 19990, some true⟩ rfl

/-- Helper: `decToCents` is exactly "multiply the decimal value by 100 and round
to the nearest integer" (halves rounding up). -/
theorem decToCents_eq_round (n : ℕ) (frac : List Char) :
    (decToCents n frac : ℤ) =
      round (((n : ℚ) + digitsVal frac / 10 ^ frac.length) * 100) := by
  set k := frac.length
  set f := digitsVal frac
  have hk : (10 : ℚ) ^ k ≠ 0 := by positivity
  have h1 : ((n : ℚ) + f / 10 ^ k) * 100
      = (100 * f / 10 ^ k : ℚ) + ((100 * n : ℤ) : ℚ) := by
    push_cast
    field_simp
    ring
  rw [h1, round_add_int, round_eq]
  have h2 : (100 * (f : ℚ) / 10 ^ k) + 1 / 2
      = ((200 * f + 10 ^ k : ℕ) : ℚ) / ((2 * 10 ^ k : ℕ) : ℚ) := by
    push_cast
    field_simp
    ring
  rw [h2, Rat.floor_natCast_div_natCast]
  unfold decToCents
  push_cast
  ring

/-- C8 — `priceFromMeta` parses the price meta value as a decimal amount and
converts it to minor units by multiplying by 100 and rounding to the nearest
integer: `"12.34"` yields `1234`, `"0.00"` yields `0`, every successfully parsed
decimal yields exactly `round(value * 100)`, and every value that is not a valid
decimal number fails with `PriceParseError`. -/
theorem priceFromMeta_round :
    priceFromMeta (priceOnlyDoc "12.34") = .ok 1234
    ∧ priceFromMeta (priceOnlyDoc "0.00") = .ok 0
    ∧ (∀ s n frac, parseDecimal s = some (n, frac) →
        priceFromMeta (priceOnlyDoc s)
          = .ok (round (((n : ℚ) + digitsVal frac / 10 ^ frac.length) * 100)))
    ∧ ∀ s, parseDecimal s = none →
        priceFromMeta (priceOnlyDoc s) = .error .priceParseError := by
  refine ⟨rfl, rfl, ?_, ?_⟩
  · intro s n frac hp
    show (match parseDecimal s with
      | none => Except.error ScrapeError.priceParseError
      | some (n, frac) => Except.ok ((decToCents n frac : Nat) : Int))
      = Except.ok (round (((n : ℚ) + digitsVal frac / 10 ^ frac.length) * 100))
    rw [hp]
    exact congrArg Except.ok (decToCents_eq_round n frac)
  · intro s hp
    show (match parseDecimal s with
      | none => Except.error ScrapeError.priceParseError
      | some (n, frac) => Except.ok ((decToCents n frac : Nat) : Int))
      = Except.error ScrapeError.priceParseError
    rw [hp]

/-- Witness for C8: a parsed decimal (`"199.999"`, rounding up to `20000`) and a
non-numeric value (`"abc"`, failing with `PriceParseError`). -/
theorem priceFromMeta_round_witness :
    (parseDecimal "199.999" = some (199, ['9', '9', '9'])
     ∧ priceFromMeta (priceOnlyDoc "199.999")
        = .ok (round (((199 : ℚ)
            + digitsVal ['9', '9', '9'] / 10 ^ (['9', '9', '9'] : List Char).length) * 100)))
    ∧ parseDecimal "abc" = none
    ∧ priceFromMeta (priceOnlyDoc "abc") = .error .priceParseError :=
  ⟨⟨rfl, priceFromMeta_round.2.2.1 "199.999" 199 ['9', '9', '9'] rfl⟩,
   rfl, priceFromMeta_round.2.2.2 "abc" rfl⟩

/-- Helper: whenever the `offers.offers` path of the JSON-LD block is missing or
holds the empty array, the unguarded JavaScript chain
`ld.offers.offers[0].availability` hits a property access on `undefined`/`null`
and throws. -/
theorem diaInStock_missing_or_empty (ld : Json)
    (h : offersOffers ld = none ∨ offersOffers ld = some (.arr [])) :
    diaInStock ld = .error () := by
  cases ld with
  | null => rfl
  | bool b => rfl
  | num n => rfl
  | str s => rfl
  | arr xs => rfl
  | obj kvs =>
    cases hv : lookupKey kvs "offers" with
    | none => simp [diaInStock, jsGetProp, hv]
    | some v =>
      cases v with
      | null => simp [diaInStock, jsGetProp, hv]
      | bool b => simp [diaInStock, jsGetProp, jsGetIndex, hv]
      | num m => simp [diaInStock, jsGetProp, jsGetIndex, hv]
      | str s => simp [diaInStock, jsGetProp, jsGetIndex, hv]
      | arr xs => simp [diaInStock, jsGetProp, jsGetIndex, hv]
      | obj kvs₂ =>
        cases hv₂ : lookupKey kvs₂ "offers" with
        | none => simp [diaInStock, jsGetProp, jsGetIndex, hv, hv₂]
        | some a =>
          have ha : a = .arr [] := by
            simp [offersOffers, hv, hv₂] at h
            exact h
          subst ha
          simp [diaInStock, jsGetProp, jsGetIndex, hv, hv₂]

/-- C10 (amended) — on a page with valid EAN and price whose product JSON-LD
parses but whose `offers.offers` path is missing or an empty array, extraction
throws the untyped runtime `TypeError` (`jsTypeError`), not one of the named
extraction errors, and emits no record. -/
theorem getDiaProduct_unguarded_offers (ld : Json)
    (h : offersOffers ld = none ∨ offersOffers ld = some (.arr [])) :
    getDiaProduct (docWithLd ld) = .error .jsTypeError := by
  have hst := diaInStock_missing_or_empty ld h
  calc getDiaProduct (docWithLd ld)
      = (match diaInStock ld with
        | .error _ => Except.error ScrapeError.jsTypeError
        | .ok st => Except.ok ⟨"7790001", some 19990, some st⟩) := rfl
    _ = .error .jsTypeError := by rw [hst]

/-- Counterexample for C10 as stated: the access is *not* safe only under a
non-empty `offers.offers` array — when `offers.offers` is the non-empty string
`"x"`, indexing yields the character `"x"`, whose `availability` property is
`undefined`, so no error is thrown and extraction succeeds with
`inStock = false`, even though `offers.offers` is not a non-empty array. -/
theorem getDiaProduct_unguarded_offers_cex :
    getDiaProduct (docWithLd ldStrOffers)
      = .ok ⟨"7790001", some 19990, some false⟩
    ∧ (offersOffers ldStrOffers).map isNonEmptyArr = some false :=
  ⟨rfl, rfl⟩

/-- Witness for C10 (amended): the empty-object JSON-LD block has no
`offers.offers` path and extraction throws the untyped error. -/
theorem getDiaProduct_unguarded_offers_witness :
    offersOffers (.obj []) = none
    ∧ getDiaProduct (docWithLd (.obj [])) = .error .jsTypeError :=
  ⟨rfl, getDiaProduct_unguarded_offers (.obj []) (Or.inl rfl)⟩

end Preciazo

namespace Preciazo

/-! ### Store and query-layer theorems -/

/-- Helper: the query result is a permutation of the rows whose `ean` matches. -/
theorem historyFor_perm (db : DB) (e : String) :
    (historyFor db e).Perm (db.filter (fun r => r.ean == e)) :=
  List.perm_insertionSort fetchedLe _

/-- Helper: the query result is sorted by ascending `fetchedAt`. -/
theorem historyFor_sorted (db : DB) (e : String) :
    (historyFor db e).Pairwise fetchedLe :=
  List.sorted_insertionSort fetchedLe _

/-- Helper: membership in the query result is membership in the table with the
requested `ean`. -/
theorem mem_historyFor {db : DB} {e : String} {x : Row} :
    x ∈ historyFor db e ↔ x ∈ db ∧ x.ean = e := by
  rw [(historyFor_perm db e).mem_iff, List.mem_filter]
  simp [beq_iff_eq]

/-- Helper: on a `Pairwise`-related list, the element returned by `find?` relates
to every later match, so it is extremal among the satisfying elements. -/
theorem find?_pairwise_rel {α : Type} {S : α → α → Prop} {p : α → Bool} {r : α} :
    ∀ {m : List α}, m.Pairwise S → m.find? p = some r →
      ∀ x ∈ m, p x = true → x = r ∨ S r x := by
  intro m
  induction m with
  | nil => intro _ hf; simp at hf
  | cons a t ih =>
    intro hp hf x hx hpx
    rcases List.pairwise_cons.mp hp with ⟨ha, ht⟩
    by_cases hpa : p a = true
    · rw [List.find?_cons_of_pos _ hpa] at hf
      obtain rfl := Option.some.inj hf
      rcases List.mem_cons.mp hx with rfl | hxt
      · exact Or.inl rfl
      · exact Or.inr (ha x hxt)
    · rw [List.find?_cons_of_neg _ hpa] at hf
      rcases List.mem_cons.mp hx with rfl | hxt
      · exact absurd hpx hpa
      · exact ih ht hf x hxt hpx

/-- C1 — `latestMetadata` (i.e. `res.findLast((p) => p.name)` over the ascending
query result) is absent exactly when no stored row of the EAN has a truthy
(non-empty) name, and when present it is such a row whose `fetchedAt` is maximal
among the rows of that EAN with non-empty name — later rows with absent or empty
names are skipped. -/
theorem latestMetadata_spec (db : DB) (e : String) :
    ((latestMetadata db e = none) ↔ ∀ r ∈ db, r.ean = e → truthyName r = false)
    ∧ ∀ r, latestMetadata db e = some r →
        r ∈ db ∧ r.ean = e ∧ truthyName r = true ∧
        ∀ x ∈ db, x.ean = e → truthyName x = true → x.fetchedAt ≤ r.fetchedAt := by
  constructor
  · unfold latestMetadata jsFindLast
    rw [List.find?_eq_none]
    constructor
    · intro h r hr he
      have hmem : r ∈ (historyFor db e).reverse := by
        rw [List.mem_reverse]; exact mem_historyFor.mpr ⟨hr, he⟩
      simpa using h r hmem
    · intro h x hx
      rw [List.mem_reverse] at hx
      rcases mem_historyFor.mp hx with ⟨hxdb, hxe⟩
      simpa using h x hxdb hxe
  · intro r hf
    unfold latestMetadata jsFindLast at hf
    have hpr : truthyName r = true := List.find?_some hf
    have hrmem : r ∈ historyFor db e :=
      List.mem_reverse.mp (List.mem_of_find?_eq_some hf)
    rcases mem_historyFor.mp hrmem with ⟨hrdb, hre⟩
    refine ⟨hrdb, hre, hpr, ?_⟩
    intro x hx hxe hxt
    have hrev : (historyFor db e).reverse.Pairwise (fun a b => fetchedLe b a) :=
      List.pairwise_reverse.mpr (historyFor_sorted db e)
    have hxrev : x ∈ (historyFor db e).reverse := by
      rw [List.mem_reverse]; exact mem_historyFor.mpr ⟨hx, hxe⟩
    rcases find?_pairwise_rel hrev hf x hxrev hxt with rfl | hle
    · exact le_refl _
    · exact hle

/-- Witness for C1: on the sample database, the metadata row for EAN `"77"` is
`wr1` (named, maximal `fetchedAt`; the tied later row `wr4` has an empty name and
is skipped). -/
theorem latestMetadata_spec_witness :
    wr1 ∈ wdb ∧ wr1.ean = "77" ∧ truthyName wr1 = true ∧
    ∀ x ∈ wdb, x.ean = "77" → truthyName x = true → x.fetchedAt ≤ wr1.fetchedAt :=
  (latestMetadata_spec wdb "77").2 wr1 (by decide)

/-- Helper: the executable query model is one admissible result of the SQL
contract (a permutation of the matching rows, ascending in `fetched_at`). -/
theorem historyFor_admissible (db : DB) (e : String) :
    admissibleQueryResult db e (historyFor db e) :=
  ⟨historyFor_perm db e, historyFor_sorted db e⟩

/-- C5 — the claim's first half (exactly the matching rows, ascending
`fetchedAt`) is what the query guarantees, but its tie-break half is not: the
query orders only by `fetched_at` with no secondary sort key, and SQLite leaves
the relative order of equal-key rows unspecified.  At the failing input `wdb`
(insertion-ordered, with rows `wr1` of identity 1 and `wr4` of identity 4 sharing
EAN `"77"` and `fetchedAt` 5), both `[wr2, wr1, wr4]` and `[wr2, wr4, wr1]` are
admissible results of the query, and the latter violates the claimed
smaller-identity-first tie order — the spec's tie-break invariant would need
`ORDER BY fetched_at, id` in the code. -/
theorem historyFor_tiebreak_unspecified :
    insertionOrdered wdb
    ∧ admissibleQueryResult wdb "77" [wr2, wr1, wr4]
    ∧ admissibleQueryResult wdb "77" [wr2, wr4, wr1]
    ∧ ¬ ([wr2, wr4, wr1].Pairwise
          (fun a b => a.fetchedAt < b.fetchedAt
            ∨ (a.fetchedAt = b.fetchedAt ∧ a.id < b.id))) := by
  refine ⟨?_, ⟨?_, ?_⟩, ⟨?_, ?_⟩, ?_⟩
  · unfold insertionOrdered
    decide
  · decide
  · decide
  · decide
  · decide
  · decide

/-- C6 — the `load` boundary returns `error(404, "Not Found")` exactly when the
EAN has zero stored observations (the query result is the empty sequence); with
at least one observation, no not-found condition is produced. -/
theorem load_notFound_spec (db : DB) (e : String) :
    (load db e = .err 404 "Not Found" ↔ ∀ r ∈ db, r.ean ≠ e)
    ∧ (historyFor db e = [] ↔ ∀ r ∈ db, r.ean ≠ e) := by
  have hemp : historyFor db e = [] ↔ ∀ r ∈ db, r.ean ≠ e := by
    constructor
    · intro h r hr he
      have hmem : r ∈ historyFor db e := mem_historyFor.mpr ⟨hr, he⟩
      simp [h] at hmem
    · intro h
      have hfil : db.filter (fun r => r.ean == e) = [] := by
        rw [List.filter_eq_nil_iff]
        intro r hr
        simp only [beq_iff_eq]
        exact h r hr
      exact List.perm_nil.mp (hfil ▸ historyFor_perm db e)
  refine ⟨?_, hemp⟩
  constructor
  · intro h
    by_cases hl : (historyFor db e).length = 0
    · exact hemp.mp (List.length_eq_zero.mp hl)
    · exact absurd h (by simp [load, hl])
  · intro h
    have hl : (historyFor db e).length = 0 := by
      rw [List.length_eq_zero]
      exact hemp.mpr h
    simp [load, hl]

/-- Witness for C6: the sample database holds no row for EAN `"99"`, so `load`
answers `error(404, "Not Found")` and the history is empty. -/
theorem load_notFound_spec_witness :
    load wdb "99" = .err 404 "Not Found" ∧ historyFor wdb "99" = [] :=
  ⟨((load_notFound_spec wdb "99").1).mpr (by decide),
   ((load_notFound_spec wdb "99").2).mpr (by decide)⟩

end Preciazo
